import Mathlib

/-!
Verification of the ingestion-and-normalization pipeline of the faculty
research dashboard (`src/app.py`).

The embedding models:
* pandas cell values (`Value`): a string, a numeric value (rationals stand
  in for floats; pandas `NaN` is represented by `Value.null`, which is also
  the missing-value marker), or null;
* data frames (`DF`): a list of column labels plus rows given as
  association lists from column label to value (a label missing from a row
  reads as null, matching the `NaN` padding `pandas.concat` introduces);
* the Python string transforms used on the `Status` column
  (`str.strip`, `str.lower`, `str.capitalize`) on explicit character lists;
* the per-source loading logic of `load_and_clean_data`, with the
  filesystem abstracted as, per source, which files exist and what each
  read attempt would produce (`SourceFS`); a read that raises is modelled
  by `none` / an error constructor, and Streamlit toasts/warnings/errors
  are collected as a list of messages (`Msg`);
* the filter and summary-metric logic of `main`.

`normalize` returns `Except Unit DF`: the `.error` case models the KeyError
raised by `df['Amount(in lakhs)']` on line 57 of `src/app.py` when the
concatenated frame has no such column; no other statement of
`load_and_clean_data` outside the try/except blocks can raise.
-/

namespace FacultyDashboard

/-- A pandas cell value: a string, a number (`Rat` models float; a float
`NaN` is folded into `null`), or a null/missing marker (`None`/`NaN`). -/
inductive Value where
  | str (s : String)
  | num (x : Rat)
  | null
deriving DecidableEq, Repr

/-! ### Python string primitives

`str.strip`, `str.lower`, `str.capitalize` are modelled on `List Char`,
wrapped into `String` operations. Python's `str.capitalize` upper-cases
the first character and lower-cases the rest. -/

/-- Python `str.strip` on a character list: drop whitespace from the front,
then from the back. -/
def stripList (l : List Char) : List Char :=
  ((l.dropWhile Char.isWhitespace).reverse.dropWhile Char.isWhitespace).reverse

/-- Python `str.lower` on a character list. -/
def lowerList (l : List Char) : List Char :=
  l.map Char.toLower

/-- Python `str.capitalize` on a character list: first character
upper-cased, all remaining characters lower-cased. -/
def capitalizeList (l : List Char) : List Char :=
  match l with
  | [] => []
  | c :: cs => c.toUpper :: cs.map Char.toLower

/-- Python `str.strip`. -/
def pyStrip (s : String) : String := ⟨stripList s.data⟩

/-- Python `str.lower`. -/
def pyLower (s : String) : String := ⟨lowerList s.data⟩

/-- Python `str.capitalize`. -/
def pyCapitalize (s : String) : String := ⟨capitalizeList s.data⟩

/-- The status-casing chain of `load_and_clean_data`
(`.str.strip().str.lower().str.capitalize()`). -/
def statusCase (s : String) : String := pyCapitalize (pyLower (pyStrip s))

/-! ### Character-level lemmas -/

theorem char_toNat_ofNat_of_valid (n : Nat) (h : n.isValidChar) :
    (Char.ofNat n).toNat = n := by
  simp [Char.ofNat, h, Char.toNat, Char.ofNatAux]
  rfl

theorem char_eq_iff_toNat (c d : Char) : c = d ↔ c.toNat = d.toNat := by
  constructor
  · intro h; rw [h]
  · intro h; exact Char.eq_of_val_eq (UInt32.ext h)

theorem toLower_toNat (c : Char) :
    c.toLower.toNat = if 65 ≤ c.toNat ∧ c.toNat ≤ 90 then c.toNat + 32 else c.toNat := by
  unfold Char.toLower
  by_cases h : c.toNat ≥ 65 ∧ c.toNat ≤ 90
  · rw [if_pos h, if_pos ⟨h.1, h.2⟩]
    exact char_toNat_ofNat_of_valid _ (Or.inl (by omega))
  · rw [if_neg h, if_neg (by tauto)]

theorem toUpper_toNat (c : Char) :
    c.toUpper.toNat = if 97 ≤ c.toNat ∧ c.toNat ≤ 122 then c.toNat - 32 else c.toNat := by
  unfold Char.toUpper
  by_cases h : c.toNat ≥ 97 ∧ c.toNat ≤ 122
  · rw [if_pos h, if_pos ⟨h.1, h.2⟩]
    exact char_toNat_ofNat_of_valid _ (Or.inl (by omega))
  · rw [if_neg h, if_neg (by tauto)]

theorem isWhitespace_iff_toNat (c : Char) :
    c.isWhitespace = true ↔ (c.toNat = 32 ∨ c.toNat = 9 ∨ c.toNat = 13 ∨ c.toNat = 10) := by
  unfold Char.isWhitespace
  simp only [Bool.or_eq_true, decide_eq_true_eq]
  rw [char_eq_iff_toNat c ' ', char_eq_iff_toNat c '\t',
    char_eq_iff_toNat c '\x0d', char_eq_iff_toNat c '\n']
  tauto

theorem isWhitespace_toLower (c : Char) : c.toLower.isWhitespace = c.isWhitespace := by
  by_cases h : 65 ≤ c.toNat ∧ c.toNat ≤ 90
  · have h1 : c.toLower.isWhitespace = false := by
      rw [← Bool.not_eq_true, isWhitespace_iff_toNat, toLower_toNat, if_pos h]
      omega
    have h2 : c.isWhitespace = false := by
      rw [← Bool.not_eq_true, isWhitespace_iff_toNat]
      omega
    rw [h1, h2]
  · have : c.toLower.toNat = c.toNat := by rw [toLower_toNat, if_neg h]
    by_cases hw : c.isWhitespace = true
    · rw [hw, isWhitespace_iff_toNat, this, ← isWhitespace_iff_toNat, hw]
    · rw [Bool.not_eq_true] at hw
      rw [hw, ← Bool.not_eq_true, isWhitespace_iff_toNat, this, ← isWhitespace_iff_toNat,
        Bool.not_eq_true, hw]

theorem isWhitespace_toUpper (c : Char) : c.toUpper.isWhitespace = c.isWhitespace := by
  by_cases h : 97 ≤ c.toNat ∧ c.toNat ≤ 122
  · have h1 : c.toUpper.isWhitespace = false := by
      rw [← Bool.not_eq_true, isWhitespace_iff_toNat, toUpper_toNat, if_pos h]
      omega
    have h2 : c.isWhitespace = false := by
      rw [← Bool.not_eq_true, isWhitespace_iff_toNat]
      omega
    rw [h1, h2]
  · have : c.toUpper.toNat = c.toNat := by rw [toUpper_toNat, if_neg h]
    by_cases hw : c.isWhitespace = true
    · rw [hw, isWhitespace_iff_toNat, this, ← isWhitespace_iff_toNat, hw]
    · rw [Bool.not_eq_true] at hw
      rw [hw, ← Bool.not_eq_true, isWhitespace_iff_toNat, this, ← isWhitespace_iff_toNat,
        Bool.not_eq_true, hw]

theorem toLower_toLower (c : Char) : c.toLower.toLower = c.toLower := by
  rw [char_eq_iff_toNat, toLower_toNat c.toLower, toLower_toNat c]
  by_cases h : 65 ≤ c.toNat ∧ c.toNat ≤ 90
  · rw [if_pos h, if_neg (by omega)]
  · rw [if_neg h, if_neg h]

theorem toLower_toUpper_toLower (c : Char) : c.toLower.toUpper.toLower = c.toLower := by
  rw [char_eq_iff_toNat, toLower_toNat c.toLower.toUpper, toUpper_toNat c.toLower,
    toLower_toNat c]
  split_ifs <;> omega

/-! ### List-level lemmas for strip / lower / capitalize -/

theorem data_mk (l : List Char) : (⟨l⟩ : String).data = l := rfl

/-- A character list with no leading and no trailing whitespace. -/
def wsClean (l : List Char) : Prop :=
  (∀ c ∈ l.head?, c.isWhitespace = false) ∧ (∀ c ∈ l.getLast?, c.isWhitespace = false)

theorem dropWhile_eq_self_of_head {α : Type} (p : α → Bool) (l : List α)
    (h : ∀ c ∈ l.head?, p c = false) : l.dropWhile p = l := by
  cases l with
  | nil => rfl
  | cons a as =>
    have ha : p a = false := h a (by simp)
    simp [List.dropWhile_cons, ha]

theorem head?_dropWhile_not {α : Type} (p : α → Bool) (l : List α) :
    ∀ c ∈ (l.dropWhile p).head?, p c = false := by
  induction l with
  | nil => intro c hc; simp at hc
  | cons a as ih =>
    intro c hc
    rw [List.dropWhile_cons] at hc
    by_cases h : p a = true
    · rw [if_pos h] at hc
      exact ih c hc
    · rw [if_neg h] at hc
      simp at hc
      rw [← hc]
      exact Bool.eq_false_iff.mpr h

theorem getLast?_dropWhile {α : Type} (p : α → Bool) (l : List α)
    (h : l.dropWhile p ≠ []) : (l.dropWhile p).getLast? = l.getLast? := by
  conv_rhs => rw [← List.takeWhile_append_dropWhile p l]
  rw [List.getLast?_append]
  cases hb : (l.dropWhile p).getLast? with
  | none => exact absurd (List.getLast?_eq_none_iff.mp hb) h
  | some b => rfl

theorem wsClean_eq_self {l : List Char} (h : wsClean l) : stripList l = l := by
  unfold stripList
  rw [dropWhile_eq_self_of_head _ l h.1,
    dropWhile_eq_self_of_head _ l.reverse (by rw [List.head?_reverse]; exact h.2),
    List.reverse_reverse]

theorem wsClean_stripList (l : List Char) : wsClean (stripList l) := by
  unfold stripList
  constructor
  · intro c hc
    rw [List.head?_reverse] at hc
    have hbne : (l.dropWhile Char.isWhitespace).reverse.dropWhile Char.isWhitespace ≠ [] := by
      intro hemp
      rw [hemp] at hc
      simp at hc
    rw [getLast?_dropWhile _ _ hbne, List.getLast?_reverse] at hc
    exact head?_dropWhile_not _ l c hc
  · intro c hc
    rw [List.getLast?_reverse] at hc
    exact head?_dropWhile_not _ (l.dropWhile Char.isWhitespace).reverse c hc

theorem stripList_stripList (l : List Char) : stripList (stripList l) = stripList l :=
  wsClean_eq_self (wsClean_stripList l)

theorem map_toLower_map_toLower (l : List Char) :
    (l.map Char.toLower).map Char.toLower = l.map Char.toLower := by
  rw [List.map_map]
  exact List.map_congr_left (fun a _ => toLower_toLower a)

theorem capLow_idem (l : List Char) :
    capitalizeList (lowerList (capitalizeList (lowerList l))) = capitalizeList (lowerList l) := by
  cases l with
  | nil => rfl
  | cons a as =>
    show capitalizeList (lowerList (a.toLower.toUpper :: (as.map Char.toLower).map Char.toLower))
      = a.toLower.toUpper :: (as.map Char.toLower).map Char.toLower
    rw [map_toLower_map_toLower]
    show a.toLower.toUpper.toLower.toUpper :: ((as.map Char.toLower).map Char.toLower).map Char.toLower
      = a.toLower.toUpper :: as.map Char.toLower
    rw [toLower_toUpper_toLower, map_toLower_map_toLower, map_toLower_map_toLower]

theorem wsClean_capLow {l : List Char} (h : wsClean l) :
    wsClean (capitalizeList (lowerList l)) := by
  cases l with
  | nil =>
    exact ⟨fun c hc => by simp [lowerList, capitalizeList] at hc,
           fun c hc => by simp [lowerList, capitalizeList] at hc⟩
  | cons a as =>
    have hhead : a.isWhitespace = false := h.1 a (by simp)
    have hshape : capitalizeList (lowerList (a :: as))
        = a.toLower.toUpper :: as.map Char.toLower := by
      show a.toLower.toUpper :: (as.map Char.toLower).map Char.toLower
        = a.toLower.toUpper :: as.map Char.toLower
      rw [map_toLower_map_toLower]
    rw [hshape]
    constructor
    · intro c hc
      simp only [List.head?_cons, Option.mem_def, Option.some.injEq] at hc
      rw [← hc, isWhitespace_toUpper, isWhitespace_toLower]
      exact hhead
    · intro c hc
      rw [List.getLast?_cons, List.getLast?_map] at hc
      simp only [Option.mem_def, Option.some.injEq] at hc
      cases hlast : as.getLast? with
      | none =>
        rw [hlast] at hc
        simp at hc
        rw [← hc, isWhitespace_toUpper, isWhitespace_toLower]
        exact hhead
      | some b =>
        have hb : b.isWhitespace = false := by
          refine h.2 b ?_
          rw [List.getLast?_cons, hlast]
          simp
        rw [hlast] at hc
        simp at hc
        rw [← hc, isWhitespace_toLower]
        exact hb

theorem statusCase_statusCase (s : String) : statusCase (statusCase s) = statusCase s := by
  unfold statusCase pyCapitalize pyLower pyStrip
  rw [data_mk, data_mk, data_mk, data_mk]
  congr 1
  rw [wsClean_eq_self (wsClean_capLow (wsClean_stripList s.data))]
  exact capLow_idem _

/-! ### Rows and data frames -/

/-- A data-frame row: an association list from column label to cell value.
A label missing from a row reads as null (`pandas.concat` pads missing
columns with `NaN`). -/
abbrev Row := List (String × Value)

/-- Read the cell for column `c` (`NaN`, i.e. null, when absent). -/
def getCell (r : Row) (c : String) : Value :=
  match r.find? (fun p => p.1 == c) with
  | some p => p.2
  | none => Value.null

/-- Write the cell for column `c`: replace the value of every entry labelled
`c`, or append the entry when the label is absent. -/
def setCell (r : Row) (c : String) (v : Value) : Row :=
  if r.any (fun p => p.1 == c) then
    r.map (fun p => if p.1 == c then (c, v) else p)
  else r ++ [(c, v)]

/-- A data frame: column labels plus rows. -/
structure DF where
  cols : List String
  rows : List Row
deriving DecidableEq, Repr

def emptyDF : DF := ⟨[], []⟩

/-- `df[c] = <elementwise f>`: rewrite column `c` of every row. -/
def mapCol (df : DF) (c : String) (f : Value → Value) : DF :=
  ⟨if c ∈ df.cols then df.cols else df.cols ++ [c],
   df.rows.map (fun r => setCell r c (f (getCell r c)))⟩

/-- `df[c] = <constant>`: set column `c` of every row to `v`. -/
def setColConst (df : DF) (c : String) (v : Value) : DF :=
  ⟨if c ∈ df.cols then df.cols else df.cols ++ [c],
   df.rows.map (fun r => setCell r c v)⟩

/-- The column alias map of `load_and_clean_data`
(`df.rename(columns={'Funding agency': 'Funding Agency',
'Co-Investigator': 'Co-investigator'})`). -/
def aliasFn (c : String) : String :=
  if c = "Funding agency" then "Funding Agency"
  else if c = "Co-Investigator" then "Co-investigator"
  else c

def renameRow (r : Row) : Row := r.map (fun p => (aliasFn p.1, p.2))

/-- `df.rename(columns=...)` with the alias map. -/
def renameDF (df : DF) : DF := ⟨df.cols.map aliasFn, df.rows.map renameRow⟩

/-- `pd.concat`: union of column labels, rows appended in batch order. -/
def concatDF (d1 d2 : DF) : DF :=
  ⟨d1.cols ++ d2.cols.filter (fun c => !d1.cols.contains c), d1.rows ++ d2.rows⟩

def concatAll : List DF → DF
  | [] => emptyDF
  | [d] => d
  | d :: ds => concatDF d (concatAll ds)

/-! ### Cell-level transforms of the Normalizer -/

/-- Python `str(value)` as applied by `.astype(str)`: a float `NaN` prints
as `"nan"`. -/
def valueToString (v : Value) : String :=
  match v with
  | .str s => s
  | .num x => toString x
  | .null => "nan"

def digitsToNat (l : List Char) : Nat :=
  l.foldl (fun n c => 10 * n + (c.toNat - 48)) 0

/-- Decimal-number parsing as performed by `pd.to_numeric`: optional
surrounding whitespace, optional sign, digits with an optional fractional
part. Anything else fails to parse. -/
def parseNum (s : String) : Option Rat :=
  let l := stripList s.data
  let (sign, l) : Rat × List Char :=
    match l with
    | '-' :: rest => (-1, rest)
    | '+' :: rest => (1, rest)
    | _ => (1, l)
  let intPart := l.takeWhile (fun c => !(c == '.'))
  let rest := l.dropWhile (fun c => !(c == '.'))
  match rest with
  | [] =>
    if intPart ≠ [] ∧ intPart.all Char.isDigit then
      some (sign * (digitsToNat intPart : Rat))
    else none
  | _ :: frac =>
    if (intPart ≠ [] ∨ frac ≠ []) ∧ intPart.all Char.isDigit ∧ frac.all Char.isDigit then
      some (sign * ((digitsToNat intPart : Rat) + (digitsToNat frac : Rat) / (10 ^ frac.length : Rat)))
    else none

/-- `pd.to_numeric(·, errors='coerce')` on one cell; `none` is the `NaN`
it produces for unparsable input. -/
def toNumeric (v : Value) : Option Rat :=
  match v with
  | .num x => some x
  | .null => none
  | .str s => parseNum s

/-- `pd.to_numeric(·, errors='coerce').fillna(0)` on one cell. -/
def coerceAmount (v : Value) : Value :=
  .num ((toNumeric v).getD 0)

/-- `.astype(str).str.strip().str.lower().str.capitalize()` on one cell. -/
def statusTransform (v : Value) : Value :=
  .str (statusCase (valueToString v))

/-- `.fillna(d)` on one cell. -/
def fillVal (d : String) (v : Value) : Value :=
  if v = Value.null then .str d else v

def amountCol : String := "Amount(in lakhs)"

/-- Lines 57-74 of `src/app.py`: amount coercion (line 57 raises a KeyError,
modelled as `.error ()`, when the frame has no `Amount(in lakhs)` column),
then conditional status casing and sentinel null-filling. -/
def normalize (df : DF) : Except Unit DF :=
  if amountCol ∈ df.cols then
    let df1 := mapCol df amountCol coerceAmount
    let df2 := if "Status" ∈ df1.cols then mapCol df1 "Status" statusTransform else df1
    let df3 := if "Co-investigator" ∈ df2.cols then
        mapCol df2 "Co-investigator" (fillVal "None") else df2
    let df4 := if "Domain" ∈ df3.cols then mapCol df3 "Domain" (fillVal "Unspecified") else df3
    let df5 := if "Faculty Name" ∈ df4.cols then
        mapCol df4 "Faculty Name" (fillVal "Unknown") else df4
    .ok df5
  else .error ()

/-! ### The loader -/

/-- Outcome of one `pd.read_csv` attempt with the default encoding. -/
inductive ReadOutcome where
  | ok (df : DF)
  | unicodeErr
  | err
deriving DecidableEq, Repr

/-- The filesystem as one source sees it: which of its two files exist and
what each read attempt would produce (`none` / non-`ok` model the read
raising). -/
structure SourceFS where
  xlsxExists : Bool
  xlsxRead : Option DF
  csvExists : Bool
  csvRead : ReadOutcome
  csvReadLatin1 : Option DF
deriving DecidableEq, Repr

/-- Streamlit messages emitted by `load_and_clean_data`. -/
inductive Msg where
  | toastLatin1 (dept : String)
  | warnNoEncoding (dept : String)
  | warnCantRead (dept : String)
  | errNoData (dept : String)
deriving DecidableEq, Repr

/-- Lines 20-39 of `src/app.py`: try the spreadsheet, then the CSV with the
default encoding, then the CSV with latin1 on a `UnicodeDecodeError`. -/
def loadSource (dept : String) (fs : SourceFS) : Option DF × List Msg :=
  match (if fs.xlsxExists then fs.xlsxRead else none) with
  | some d => (some d, [])
  | none =>
    if fs.csvExists then
      match fs.csvRead with
      | .ok d => (some d, [])
      | .unicodeErr =>
        match fs.csvReadLatin1 with
        | some d => (some d, [.toastLatin1 dept])
        | none => (none, [.warnNoEncoding dept])
      | .err => (none, [.warnCantRead dept])
    else (none, [])

/-- Lines 41-50: stamp the department tag and fold column aliases, or
report the source unavailable. -/
def tagBatch (dept : String) (df : DF) : DF :=
  renameDF (setColConst df "Department" (.str dept))

def processSource (dept : String) (fs : SourceFS) : Option DF × List Msg :=
  match loadSource dept fs with
  | (some d, ms) => (some (tagBatch dept d), ms)
  | (none, ms) => (none, ms ++ [.errNoData dept])

/-- `load_and_clean_data` over the two fixed sources: per-source loading,
concatenation, then normalization. `.error` is an escaping KeyError. -/
def load_and_clean_data (fs1 fs2 : SourceFS) : Except Unit (DF × List Msg) :=
  let r1 := processSource "CSE" fs1
  let r2 := processSource "ECE" fs2
  let msgs := r1.2 ++ r2.2
  match [r1.1, r2.1].filterMap id with
  | [] => .ok (emptyDF, msgs)
  | dfs => (normalize (concatAll dfs)).map (fun d => (d, msgs))

/-! ### The caller (`main`): halt guard, filters, metrics -/

/-- `pandas.DataFrame.empty`: true when either axis has length zero. -/
def dfEmpty (df : DF) : Bool := df.rows.isEmpty || df.cols.isEmpty

/-- Lines 85-87: `main` stops before any chart when the frame is empty. -/
def mainHalts (df : DF) : Bool := dfEmpty df

/-- Elementwise pandas `== <string>`: false on numbers and nulls. -/
def valEqStr (v : Value) (s : String) : Bool :=
  match v with
  | .str t => t == s
  | _ => false

/-- Lines 100-104: the department filter, then the status filter (the
latter only when a `Status` column exists). `"All"` is the wildcard. -/
def filterDF (df : DF) (dept status : String) : DF :=
  let d1 := if dept ≠ "All" then
      ⟨df.cols, df.rows.filter (fun r => valEqStr (getCell r "Department") dept)⟩
    else df
  if status ≠ "All" ∧ "Status" ∈ d1.cols then
    ⟨d1.cols, d1.rows.filter (fun r => valEqStr (getCell r "Status") status)⟩
  else d1

def amountVal (v : Value) : Rat :=
  match v with
  | .num x => x
  | _ => 0

/-- Line 109: `df_filtered['Amount(in lakhs)'].sum()`. -/
def total_funding (df : DF) : Rat :=
  (df.rows.map (fun r => amountVal (getCell r amountCol))).sum

/-- Line 110: `len(df_filtered)`. -/
def total_projects (df : DF) : Nat := df.rows.length

/-- Line 111: `df_filtered['Faculty Name'].nunique()` guarded by column
presence; `nunique` counts distinct non-null values. -/
def unique_faculty (df : DF) : Nat :=
  if "Faculty Name" ∈ df.cols then
    (((df.rows.map (fun r => getCell r "Faculty Name")).filter
      (fun v => v ≠ Value.null)).dedup).length
  else 0

/-- Line 112: `total_funding / total_projects if total_projects > 0 else 0`. -/
def avg_funding (df : DF) : Rat :=
  if total_projects df > 0 then total_funding df / (total_projects df : Rat) else 0

/-! ### Row-level lemmas -/

theorem find?_replace_self (r : Row) (c : String) (v : Value)
    (h : r.any (fun p => p.1 == c) = true) :
    (r.map (fun p => if p.1 == c then (c, v) else p)).find? (fun p => p.1 == c)
      = some (c, v) := by
  induction r with
  | nil => simp at h
  | cons p ps ih =>
    rw [List.map_cons]
    by_cases hp : (p.1 == c) = true
    · rw [if_pos hp]
      exact @List.find?_cons_of_pos (String × Value) (fun q => q.1 == c) _ _ (beq_self_eq_true c)
    · rw [if_neg hp, @List.find?_cons_of_neg (String × Value) (fun q => q.1 == c) _ _ hp]
      simp only [List.any_cons, Bool.or_eq_true] at h
      exact ih (h.resolve_left hp)

theorem find?_replace_ne (r : Row) (c c' : String) (v : Value) (h : ¬ c' = c) :
    (r.map (fun p => if p.1 == c then (c, v) else p)).find? (fun p => p.1 == c')
      = r.find? (fun p => p.1 == c') := by
  induction r with
  | nil => rfl
  | cons p ps ih =>
    rw [List.map_cons]
    by_cases hp : (p.1 == c) = true
    · have hp' : p.1 = c := beq_iff_eq.mp hp
      rw [if_pos hp]
      have hcc' : ¬ ((c, v).1 == c') = true := by
        simp only [beq_iff_eq]
        exact fun hh => h hh.symm
      have hpc' : ¬ (p.1 == c') = true := by
        rw [hp']
        exact hcc'
      rw [@List.find?_cons_of_neg (String × Value) (fun q => q.1 == c') _ _ hcc',
        @List.find?_cons_of_neg (String × Value) (fun q => q.1 == c') _ _ hpc']
      exact ih
    · rw [if_neg hp]
      by_cases hm : (p.1 == c') = true
      · rw [@List.find?_cons_of_pos (String × Value) (fun q => q.1 == c') _ _ hm,
          @List.find?_cons_of_pos (String × Value) (fun q => q.1 == c') _ _ hm]
      · rw [@List.find?_cons_of_neg (String × Value) (fun q => q.1 == c') _ _ hm,
          @List.find?_cons_of_neg (String × Value) (fun q => q.1 == c') _ _ hm]
        exact ih

theorem getCell_setCell_self (r : Row) (c : String) (v : Value) :
    getCell (setCell r c v) c = v := by
  unfold setCell
  by_cases h : r.any (fun p => p.1 == c) = true
  · rw [if_pos h]
    unfold getCell
    rw [find?_replace_self r c v h]
  · rw [if_neg h]
    unfold getCell
    rw [List.find?_append]
    have hnone : r.find? (fun p => p.1 == c) = none :=
      List.find?_eq_none.mpr (List.any_eq_false.mp (Bool.eq_false_iff.mpr h))
    rw [hnone, @List.find?_cons_of_pos (String × Value) (fun q => q.1 == c) _ _ (beq_self_eq_true c)]
    rfl

theorem getCell_setCell_ne (r : Row) (c c' : String) (v : Value) (h : ¬ c' = c) :
    getCell (setCell r c v) c' = getCell r c' := by
  unfold setCell
  by_cases hany : r.any (fun p => p.1 == c) = true
  · rw [if_pos hany]
    unfold getCell
    rw [find?_replace_ne r c c' v h]
  · rw [if_neg hany]
    unfold getCell
    rw [List.find?_append]
    have hlast : List.find? (fun p => p.1 == c') [(c, v)] = none := by
      refine List.find?_eq_none.mpr ?_
      intro x hx
      have hx' : x = (c, v) := by simpa using hx
      rw [hx']
      simp only [beq_iff_eq]
      intro hh
      exact h hh.symm
    rw [hlast]
    cases r.find? (fun p => p.1 == c') <;> rfl

/-- All entries labelled `c` hold the value `v`, and some entry is
labelled `c`. -/
def uniformAt (r : Row) (c : String) (v : Value) : Prop :=
  (r.any (fun p => p.1 == c) = true) ∧ (∀ p ∈ r, p.1 = c → p.2 = v)

theorem getCell_of_uniform {r : Row} {c : String} {v : Value}
    (h : uniformAt r c v) : getCell r c = v := by
  obtain ⟨x, hx, hpx⟩ := List.any_eq_true.mp h.1
  have hsome : (r.find? (fun p => p.1 == c)).isSome = true :=
    List.find?_isSome.mpr ⟨x, hx, hpx⟩
  unfold getCell
  cases hf : r.find? (fun p => p.1 == c) with
  | none => rw [hf] at hsome; simp at hsome
  | some p =>
    have hpp := List.find?_some hf
    exact h.2 p (List.mem_of_find?_eq_some hf) (beq_iff_eq.mp hpp)

theorem setCell_of_uniform {r : Row} {c : String} {v : Value}
    (h : uniformAt r c v) : setCell r c v = r := by
  unfold setCell
  rw [if_pos h.1]
  have hcongr : ∀ p ∈ r, (if p.1 == c then (c, v) else p) = p := by
    intro p hp
    by_cases hc : (p.1 == c) = true
    · have hc' : p.1 = c := beq_iff_eq.mp hc
      rw [if_pos hc, ← hc', ← h.2 p hp hc']
    · rw [if_neg hc]
  rw [List.map_congr_left hcongr, List.map_id']

theorem uniform_setCell_self (r : Row) (c : String) (v : Value) :
    uniformAt (setCell r c v) c v := by
  unfold setCell
  by_cases h : r.any (fun p => p.1 == c) = true
  · rw [if_pos h]
    constructor
    · obtain ⟨x, hx, hpx⟩ := List.any_eq_true.mp h
      exact List.any_eq_true.mpr ⟨(c, v), List.mem_map.mpr ⟨x, hx, by rw [if_pos hpx]⟩,
        beq_self_eq_true c⟩
    · intro p hp hpc
      obtain ⟨q, hq, hqp⟩ := List.mem_map.mp hp
      by_cases hqc : (q.1 == c) = true
      · rw [if_pos hqc] at hqp
        rw [← hqp]
      · rw [if_neg hqc] at hqp
        rw [← hqp] at hpc
        exact absurd (beq_iff_eq.mpr hpc) hqc
  · rw [if_neg h]
    constructor
    · exact List.any_eq_true.mpr ⟨(c, v), List.mem_append_right _ (by simp),
        beq_self_eq_true c⟩
    · intro p hp hpc
      rcases List.mem_append.mp hp with hpr | hpl
      · exact absurd (beq_iff_eq.mpr hpc)
          (List.any_eq_false.mp (Bool.eq_false_iff.mpr h) p hpr)
      · have hp' : p = (c, v) := by simpa using hpl
        rw [hp']

theorem uniform_setCell_other {r : Row} {c : String} {v : Value}
    (h : uniformAt r c v) (c' : String) (w : Value) (hne : ¬ c' = c) :
    uniformAt (setCell r c' w) c v := by
  unfold setCell
  by_cases hany : r.any (fun p => p.1 == c') = true
  · rw [if_pos hany]
    obtain ⟨x, hx, hpx⟩ := List.any_eq_true.mp h.1
    have hx1 : x.1 = c := beq_iff_eq.mp hpx
    constructor
    · have hxne : ¬ (x.1 == c') = true :=
        fun hb => hne ((beq_iff_eq.mp hb) ▸ hx1)
      exact List.any_eq_true.mpr ⟨x, List.mem_map.mpr ⟨x, hx, by rw [if_neg hxne]⟩, hpx⟩
    · intro p hp hpc
      obtain ⟨q, hq, hqp⟩ := List.mem_map.mp hp
      by_cases hqc : (q.1 == c') = true
      · rw [if_pos hqc] at hqp
        rw [← hqp] at hpc
        exact absurd hpc hne
      · rw [if_neg hqc] at hqp
        rw [← hqp] at hpc ⊢
        exact h.2 q hq hpc
  · rw [if_neg hany]
    constructor
    · obtain ⟨x, hx, hpx⟩ := List.any_eq_true.mp h.1
      exact List.any_eq_true.mpr ⟨x, List.mem_append_left _ hx, hpx⟩
    · intro p hp hpc
      rcases List.mem_append.mp hp with hpr | hpl
      · exact h.2 p hpr hpc
      · have hp' : p = (c', w) := by simpa using hpl
        rw [hp'] at hpc
        exact absurd hpc hne

/-! ### Row-wise view of the Normalizer -/

/-- The action of lines 57-74 on one row, given the frame's column list. -/
def normRow (cols : List String) (r : Row) : Row :=
  let r1 := setCell r amountCol (coerceAmount (getCell r amountCol))
  let r2 := if "Status" ∈ cols then
      setCell r1 "Status" (statusTransform (getCell r1 "Status")) else r1
  let r3 := if "Co-investigator" ∈ cols then
      setCell r2 "Co-investigator" (fillVal "None" (getCell r2 "Co-investigator")) else r2
  let r4 := if "Domain" ∈ cols then
      setCell r3 "Domain" (fillVal "Unspecified" (getCell r3 "Domain")) else r3
  if "Faculty Name" ∈ cols then
    setCell r4 "Faculty Name" (fillVal "Unknown" (getCell r4 "Faculty Name")) else r4

/-- The column-wise `normalize` acts row-wise as `normRow` and preserves the
column list. -/
theorem normalize_eq_ok (df : DF) (h : amountCol ∈ df.cols) :
    normalize df = .ok ⟨df.cols, df.rows.map (normRow df.cols)⟩ := by
  by_cases hS : "Status" ∈ df.cols <;> by_cases hC : "Co-investigator" ∈ df.cols <;>
    by_cases hD : "Domain" ∈ df.cols <;> by_cases hF : "Faculty Name" ∈ df.cols <;>
    simp [normalize, mapCol, normRow, h, hS, hC, hD, hF, List.map_map, Function.comp]

theorem normalize_err (df : DF) (h : ¬ amountCol ∈ df.cols) :
    normalize df = .error () := by
  unfold normalize
  rw [if_neg h]

/-! ### Idempotence of the cell transforms -/

theorem coerceAmount_coerceAmount (v : Value) :
    coerceAmount (coerceAmount v) = coerceAmount v := rfl

theorem statusTransform_statusTransform (v : Value) :
    statusTransform (statusTransform v) = statusTransform v := by
  show Value.str (statusCase (statusCase (valueToString v)))
    = Value.str (statusCase (valueToString v))
  rw [statusCase_statusCase]

theorem fillVal_ne_null (d : String) (v : Value) : fillVal d v ≠ Value.null := by
  unfold fillVal
  by_cases h : v = Value.null
  · rw [if_pos h]
    exact fun hh => Value.noConfusion hh
  · rw [if_neg h]
    exact h

theorem fillVal_fillVal (d : String) (v : Value) : fillVal d (fillVal d v) = fillVal d v := by
  rw [show fillVal d (fillVal d v)
      = if fillVal d v = Value.null then Value.str d else fillVal d v from rfl,
    if_neg (fillVal_ne_null d v)]

/-! ### Reading cells through the stages of `normRow` -/

theorem getCell_stage_ne {b : Prop} [Decidable b] (r : Row) (c c' : String)
    (f : Value → Value) (h : ¬ c' = c) :
    getCell (if b then setCell r c (f (getCell r c)) else r) c' = getCell r c' := by
  split_ifs
  · exact getCell_setCell_ne r c c' _ h
  · rfl

theorem uniform_stage {b : Prop} [Decidable b] {n : Row} {c : String} {v : Value}
    (h : uniformAt n c v) (c' : String) (f : Value → Value) (hne : ¬ c' = c) :
    uniformAt (if b then setCell n c' (f (getCell n c')) else n) c v := by
  split_ifs
  · exact uniform_setCell_other h c' _ hne
  · exact h

theorem stage_eq_self {b : Prop} [Decidable b] (n : Row) (c : String) (f : Value → Value)
    (h : b → ∃ w, uniformAt n c w ∧ f w = w) :
    (if b then setCell n c (f (getCell n c)) else n) = n := by
  split_ifs with hb
  · obtain ⟨w, hu, hf⟩ := h hb
    rw [getCell_of_uniform hu, hf]
    exact setCell_of_uniform hu
  · rfl

theorem getCell_normRow_amount (cols : List String) (r : Row) :
    getCell (normRow cols r) amountCol = coerceAmount (getCell r amountCol) := by
  simp only [normRow]
  rw [getCell_stage_ne _ "Faculty Name" amountCol (fillVal "Unknown") (by decide),
    getCell_stage_ne _ "Domain" amountCol (fillVal "Unspecified") (by decide),
    getCell_stage_ne _ "Co-investigator" amountCol (fillVal "None") (by decide),
    getCell_stage_ne _ "Status" amountCol statusTransform (by decide),
    getCell_setCell_self]

theorem getCell_normRow_status (cols : List String) (r : Row) (h : "Status" ∈ cols) :
    getCell (normRow cols r) "Status" = statusTransform (getCell r "Status") := by
  simp only [normRow]
  rw [getCell_stage_ne _ "Faculty Name" "Status" (fillVal "Unknown") (by decide),
    getCell_stage_ne _ "Domain" "Status" (fillVal "Unspecified") (by decide),
    getCell_stage_ne _ "Co-investigator" "Status" (fillVal "None") (by decide),
    if_pos h, getCell_setCell_self,
    getCell_setCell_ne _ amountCol "Status" _ (by decide)]

theorem getCell_normRow_coinv (cols : List String) (r : Row) (h : "Co-investigator" ∈ cols) :
    getCell (normRow cols r) "Co-investigator"
      = fillVal "None" (getCell r "Co-investigator") := by
  simp only [normRow]
  rw [getCell_stage_ne _ "Faculty Name" "Co-investigator" (fillVal "Unknown") (by decide),
    getCell_stage_ne _ "Domain" "Co-investigator" (fillVal "Unspecified") (by decide),
    if_pos h, getCell_setCell_self,
    getCell_stage_ne _ "Status" "Co-investigator" statusTransform (by decide),
    getCell_setCell_ne _ amountCol "Co-investigator" _ (by decide)]

theorem getCell_normRow_domain (cols : List String) (r : Row) (h : "Domain" ∈ cols) :
    getCell (normRow cols r) "Domain" = fillVal "Unspecified" (getCell r "Domain") := by
  simp only [normRow]
  rw [getCell_stage_ne _ "Faculty Name" "Domain" (fillVal "Unknown") (by decide),
    if_pos h, getCell_setCell_self,
    getCell_stage_ne _ "Co-investigator" "Domain" (fillVal "None") (by decide),
    getCell_stage_ne _ "Status" "Domain" statusTransform (by decide),
    getCell_setCell_ne _ amountCol "Domain" _ (by decide)]

theorem getCell_normRow_faculty (cols : List String) (r : Row) (h : "Faculty Name" ∈ cols) :
    getCell (normRow cols r) "Faculty Name"
      = fillVal "Unknown" (getCell r "Faculty Name") := by
  simp only [normRow]
  rw [if_pos h, getCell_setCell_self,
    getCell_stage_ne _ "Domain" "Faculty Name" (fillVal "Unspecified") (by decide),
    getCell_stage_ne _ "Co-investigator" "Faculty Name" (fillVal "None") (by decide),
    getCell_stage_ne _ "Status" "Faculty Name" statusTransform (by decide),
    getCell_setCell_ne _ amountCol "Faculty Name" _ (by decide)]

theorem getCell_normRow_other (cols : List String) (r : Row) (c : String)
    (h1 : ¬ c = amountCol) (h2 : ¬ c = "Status") (h3 : ¬ c = "Co-investigator")
    (h4 : ¬ c = "Domain") (h5 : ¬ c = "Faculty Name") :
    getCell (normRow cols r) c = getCell r c := by
  simp only [normRow]
  rw [getCell_stage_ne _ "Faculty Name" c (fillVal "Unknown") h5,
    getCell_stage_ne _ "Domain" c (fillVal "Unspecified") h4,
    getCell_stage_ne _ "Co-investigator" c (fillVal "None") h3,
    getCell_stage_ne _ "Status" c statusTransform h2,
    getCell_setCell_ne _ amountCol c _ h1]

/-! ### The Normalizer is idempotent -/

theorem uniform_normRow_amount (cols : List String) (r : Row) :
    uniformAt (normRow cols r) amountCol (coerceAmount (getCell r amountCol)) := by
  simp only [normRow]
  exact uniform_stage (uniform_stage (uniform_stage (uniform_stage
    (uniform_setCell_self r amountCol _)
    "Status" statusTransform (by decide))
    "Co-investigator" (fillVal "None") (by decide))
    "Domain" (fillVal "Unspecified") (by decide))
    "Faculty Name" (fillVal "Unknown") (by decide)

theorem uniform_normRow_status (cols : List String) (r : Row) (h : "Status" ∈ cols) :
    ∃ w, uniformAt (normRow cols r) "Status" w ∧ statusTransform w = w := by
  simp only [normRow]
  rw [if_pos h]
  exact ⟨_, uniform_stage (uniform_stage (uniform_stage
    (uniform_setCell_self _ "Status" _)
    "Co-investigator" (fillVal "None") (by decide))
    "Domain" (fillVal "Unspecified") (by decide))
    "Faculty Name" (fillVal "Unknown") (by decide),
    statusTransform_statusTransform _⟩

theorem uniform_normRow_coinv (cols : List String) (r : Row)
    (h : "Co-investigator" ∈ cols) :
    ∃ w, uniformAt (normRow cols r) "Co-investigator" w ∧ fillVal "None" w = w := by
  simp only [normRow]
  rw [if_pos h]
  exact ⟨_, uniform_stage (uniform_stage
    (uniform_setCell_self _ "Co-investigator" _)
    "Domain" (fillVal "Unspecified") (by decide))
    "Faculty Name" (fillVal "Unknown") (by decide),
    fillVal_fillVal _ _⟩

theorem uniform_normRow_domain (cols : List String) (r : Row) (h : "Domain" ∈ cols) :
    ∃ w, uniformAt (normRow cols r) "Domain" w ∧ fillVal "Unspecified" w = w := by
  simp only [normRow]
  rw [if_pos h]
  exact ⟨_, uniform_stage
    (uniform_setCell_self _ "Domain" _)
    "Faculty Name" (fillVal "Unknown") (by decide),
    fillVal_fillVal _ _⟩

theorem uniform_normRow_faculty (cols : List String) (r : Row)
    (h : "Faculty Name" ∈ cols) :
    ∃ w, uniformAt (normRow cols r) "Faculty Name" w ∧ fillVal "Unknown" w = w := by
  simp only [normRow]
  rw [if_pos h]
  exact ⟨_, uniform_setCell_self _ "Faculty Name" _, fillVal_fillVal _ _⟩

theorem normRow_eq_self (cols : List String) (n : Row)
    (hA : ∃ w, uniformAt n amountCol w ∧ coerceAmount w = w)
    (hS : "Status" ∈ cols → ∃ w, uniformAt n "Status" w ∧ statusTransform w = w)
    (hC : "Co-investigator" ∈ cols →
      ∃ w, uniformAt n "Co-investigator" w ∧ fillVal "None" w = w)
    (hD : "Domain" ∈ cols → ∃ w, uniformAt n "Domain" w ∧ fillVal "Unspecified" w = w)
    (hF : "Faculty Name" ∈ cols →
      ∃ w, uniformAt n "Faculty Name" w ∧ fillVal "Unknown" w = w) :
    normRow cols n = n := by
  simp only [normRow]
  have h1 : setCell n amountCol (coerceAmount (getCell n amountCol)) = n := by
    obtain ⟨w, hu, hf⟩ := hA
    rw [getCell_of_uniform hu, hf]
    exact setCell_of_uniform hu
  rw [h1, stage_eq_self n "Status" statusTransform hS,
    stage_eq_self n "Co-investigator" (fillVal "None") hC,
    stage_eq_self n "Domain" (fillVal "Unspecified") hD]
  exact stage_eq_self n "Faculty Name" (fillVal "Unknown") hF

theorem normRow_normRow (cols : List String) (r : Row) :
    normRow cols (normRow cols r) = normRow cols r :=
  normRow_eq_self cols (normRow cols r)
    ⟨coerceAmount (getCell r amountCol), uniform_normRow_amount cols r,
      coerceAmount_coerceAmount _⟩
    (fun h => uniform_normRow_status cols r h)
    (fun h => uniform_normRow_coinv cols r h)
    (fun h => uniform_normRow_domain cols r h)
    (fun h => uniform_normRow_faculty cols r h)

/-! ### Rename idempotence -/

theorem aliasFn_aliasFn (c : String) : aliasFn (aliasFn c) = aliasFn c := by
  unfold aliasFn
  split_ifs with h1 h2 <;> simp_all

/-- Rows all of whose labels are fixed points of the alias map. -/
def keysFixed (r : Row) : Prop := ∀ p ∈ r, aliasFn p.1 = p.1

theorem keysFixed_renameRow (r : Row) : keysFixed (renameRow r) := by
  intro p hp
  obtain ⟨q, hq, hqp⟩ := List.mem_map.mp hp
  rw [← hqp]
  exact aliasFn_aliasFn q.1

theorem keysFixed_setCell {r : Row} (h : keysFixed r) {c : String}
    (hc : aliasFn c = c) (v : Value) : keysFixed (setCell r c v) := by
  intro p hp
  unfold setCell at hp
  by_cases hany : r.any (fun q => q.1 == c) = true
  · rw [if_pos hany] at hp
    obtain ⟨q, hq, hqp⟩ := List.mem_map.mp hp
    by_cases hqc : (q.1 == c) = true
    · rw [if_pos hqc] at hqp
      rw [← hqp]
      exact hc
    · rw [if_neg hqc] at hqp
      rw [← hqp]
      exact h q hq
  · rw [if_neg hany] at hp
    rcases List.mem_append.mp hp with hpr | hpl
    · exact h p hpr
    · have hp' : p = (c, v) := by simpa using hpl
      rw [hp']
      exact hc

theorem keysFixed_stage {b : Prop} [Decidable b] {r : Row} (h : keysFixed r)
    {c : String} (hc : aliasFn c = c) {f : Value → Value} :
    keysFixed (if b then setCell r c (f (getCell r c)) else r) := by
  split_ifs
  · exact keysFixed_setCell h hc _
  · exact h

theorem keysFixed_normRow (cols : List String) {r : Row} (h : keysFixed r) :
    keysFixed (normRow cols r) := by
  simp only [normRow]
  exact keysFixed_stage (keysFixed_stage (keysFixed_stage (keysFixed_stage
    (keysFixed_setCell h (by decide) _) (by decide)) (by decide)) (by decide)) (by decide)

theorem renameRow_eq_self {r : Row} (h : keysFixed r) : renameRow r = r := by
  unfold renameRow
  have hcongr : ∀ p ∈ r, (aliasFn p.1, p.2) = p := fun p hp => by rw [h p hp]
  rw [List.map_congr_left hcongr, List.map_id']

/-- The Normalizer as a single re-runnable step over a frame: column
aliasing (applied per batch in the source) followed by amount coercion,
status casing and sentinel null-filling (lines 44-47 and 57-74). -/
def normalizer (df : DF) : Except Unit DF := normalize (renameDF df)

theorem normalizer_fixed {A : List String} {B : List Row}
    (hmem : amountCol ∈ A)
    (hcols : A.map aliasFn = A)
    (hrows : ∀ m ∈ B, renameRow m = m)
    (hnorm : ∀ m ∈ B, normRow A m = m) :
    normalizer ⟨A, B⟩ = Except.ok ⟨A, B⟩ := by
  unfold normalizer
  have hren : renameDF ⟨A, B⟩ = ⟨A, B⟩ := by
    unfold renameDF
    rw [show (⟨A, B⟩ : DF).cols = A from rfl, show (⟨A, B⟩ : DF).rows = B from rfl,
      hcols, List.map_congr_left hrows, List.map_id']
  rw [hren, normalize_eq_ok _ hmem]
  rw [show (⟨A, B⟩ : DF).rows = B from rfl, show (⟨A, B⟩ : DF).cols = A from rfl,
    List.map_congr_left hnorm, List.map_id']

/-- C3: the Normalizer (column aliasing, amount coercion, status
trim/lowercase/capitalize, sentinel null-filling) is idempotent: applied to
its own output it returns that output unchanged, and in particular the
status-casing transform applied twice to any string equals applying it
once. -/
theorem spec_C3 (df d : DF) (h : normalizer df = Except.ok d) :
    normalizer d = Except.ok d ∧ ∀ s : String, statusCase (statusCase s) = statusCase s := by
  have hmem : amountCol ∈ (renameDF df).cols := by
    by_contra hn
    rw [normalizer, normalize_err _ hn] at h
    exact Except.noConfusion h
  have hd : d = ⟨(renameDF df).cols, (renameDF df).rows.map (normRow (renameDF df).cols)⟩ := by
    rw [normalizer, normalize_eq_ok _ hmem] at h
    exact (Except.ok.inj h).symm
  subst hd
  refine ⟨?_, statusCase_statusCase⟩
  refine normalizer_fixed hmem ?_ ?_ ?_
  · show (df.cols.map aliasFn).map aliasFn = df.cols.map aliasFn
    rw [List.map_map]
    exact List.map_congr_left (fun c _ => aliasFn_aliasFn c)
  · intro m hm
    obtain ⟨r, hr, hrm⟩ := List.mem_map.mp hm
    have hr' : r ∈ List.map renameRow df.rows := hr
    obtain ⟨r0, hr0, hrr⟩ := List.mem_map.mp hr'
    rw [← hrm, ← hrr]
    exact renameRow_eq_self (keysFixed_normRow _ (keysFixed_renameRow r0))
  · intro m hm
    obtain ⟨r, hr, hrm⟩ := List.mem_map.mp hm
    rw [← hrm]
    exact normRow_normRow _ r

/-! ### Loader lemmas -/

theorem errNoData_mem {dept : String} {fs : SourceFS}
    (h : (processSource dept fs).1 = none) :
    Msg.errNoData dept ∈ (processSource dept fs).2 := by
  unfold processSource at h ⊢
  rcases hls : loadSource dept fs with ⟨_ | d, ms⟩
  · exact List.mem_append_right _ (List.mem_singleton_self _)
  · rw [hls] at h
    exact Option.noConfusion (show some (tagBatch dept d) = none from h)

theorem processSource_some {dept : String} {fs : SourceFS} {b : DF} {ms : List Msg}
    (h : loadSource dept fs = (some b, ms)) :
    processSource dept fs = (some (tagBatch dept b), ms) := by
  unfold processSource
  rw [h]

theorem processSource_none {dept : String} {fs : SourceFS} {ms : List Msg}
    (h : loadSource dept fs = (none, ms)) :
    processSource dept fs = (none, ms ++ [Msg.errNoData dept]) := by
  unfold processSource
  rw [h]

theorem load_both_none {fs1 fs2 : SourceFS} {m1 m2 : List Msg}
    (h1 : processSource "CSE" fs1 = (none, m1))
    (h2 : processSource "ECE" fs2 = (none, m2)) :
    load_and_clean_data fs1 fs2 = .ok (emptyDF, m1 ++ m2) := by
  unfold load_and_clean_data
  rw [h1, h2]
  rfl

theorem load_some {fs1 fs2 : SourceFS} {o1 o2 : Option DF} {m1 m2 : List Msg}
    (h1 : processSource "CSE" fs1 = (o1, m1))
    (h2 : processSource "ECE" fs2 = (o2, m2))
    (hne : ¬ [o1, o2].filterMap id = []) :
    load_and_clean_data fs1 fs2
      = (normalize (concatAll ([o1, o2].filterMap id))).map (fun d => (d, m1 ++ m2)) := by
  unfold load_and_clean_data
  rw [h1, h2]
  cases o1 <;> cases o2
  · exact absurd rfl hne
  · rfl
  · rfl
  · rfl

theorem length_tagBatch (dept : String) (b : DF) :
    (tagBatch dept b).rows.length = b.rows.length := by
  simp [tagBatch, renameDF, setColConst]

/-- C1 (amended): for every filesystem state in which either no source
loads or the concatenation of the loaded, tagged batches carries the
`Amount(in lakhs)` column, `load_and_clean_data` returns a dataset without
an escaping exception, and each source has either produced a usable batch
or been reported unavailable. (As stated over all filesystem states the
claim is false: a readable file whose columns lack `Amount(in lakhs)`
makes line 57 raise an uncaught KeyError; see the counterexample.) -/
theorem spec_C1 (fs1 fs2 : SourceFS)
    (h : ((processSource "CSE" fs1).1 = none ∧ (processSource "ECE" fs2).1 = none)
      ∨ amountCol ∈ (concatAll ([(processSource "CSE" fs1).1,
          (processSource "ECE" fs2).1].filterMap id)).cols) :
    ∃ d msgs, load_and_clean_data fs1 fs2 = Except.ok (d, msgs)
      ∧ ((processSource "CSE" fs1).1.isSome = true ∨ Msg.errNoData "CSE" ∈ msgs)
      ∧ ((processSource "ECE" fs2).1.isSome = true ∨ Msg.errNoData "ECE" ∈ msgs) := by
  have hm1 : (processSource "CSE" fs1).1 = none →
      Msg.errNoData "CSE" ∈ (processSource "CSE" fs1).2 := errNoData_mem
  have hm2 : (processSource "ECE" fs2).1 = none →
      Msg.errNoData "ECE" ∈ (processSource "ECE" fs2).2 := errNoData_mem
  rcases hp1 : processSource "CSE" fs1 with ⟨o1, m1⟩
  rcases hp2 : processSource "ECE" fs2 with ⟨o2, m2⟩
  rw [hp1] at hm1 h
  rw [hp2] at hm2 h
  cases o1 with
  | none =>
    cases o2 with
    | none =>
      exact ⟨emptyDF, m1 ++ m2, load_both_none hp1 hp2,
        Or.inr (List.mem_append_left _ (hm1 rfl)),
        Or.inr (List.mem_append_right _ (hm2 rfl))⟩
    | some b2 =>
      rcases h with ⟨_, hc⟩ | hmem
      · exact Option.noConfusion (show some b2 = none from hc)
      · rw [load_some hp1 hp2 (by simp)]
        have hred : concatAll ([(none : Option DF), some b2].filterMap id) = b2 := rfl
        rw [hred, normalize_eq_ok b2 hmem]
        exact ⟨_, m1 ++ m2, rfl, Or.inr (List.mem_append_left _ (hm1 rfl)), Or.inl rfl⟩
  | some b1 =>
    cases o2 with
    | none =>
      rcases h with ⟨hc, _⟩ | hmem
      · exact Option.noConfusion (show some b1 = none from hc)
      · rw [load_some hp1 hp2 (by simp)]
        have hred : concatAll ([some b1, (none : Option DF)].filterMap id) = b1 := rfl
        rw [hred, normalize_eq_ok b1 hmem]
        exact ⟨_, m1 ++ m2, rfl, Or.inl rfl, Or.inr (List.mem_append_right _ (hm2 rfl))⟩
    | some b2 =>
      rcases h with ⟨hc, _⟩ | hmem
      · exact Option.noConfusion (show some b1 = none from hc)
      · rw [load_some hp1 hp2 (by simp)]
        have hred : concatAll ([some b1, some b2].filterMap id) = concatDF b1 b2 := rfl
        rw [hred, normalize_eq_ok (concatDF b1 b2) hmem]
        exact ⟨_, m1 ++ m2, rfl, Or.inl rfl, Or.inl rfl⟩

/-- C4: when the preferred spreadsheet exists but its read fails, the
spreadsheet attempt contributes nothing: the loader behaves exactly as if
the spreadsheet were absent, for this source alone, and the whole pipeline
continues identically with the other source in either position. -/
theorem spec_C4 (dept : String) (fs : SourceFS) (hx : fs.xlsxExists = true)
    (hr : fs.xlsxRead = none) :
    loadSource dept fs = loadSource dept { fs with xlsxExists := false }
    ∧ (∀ fs2, load_and_clean_data fs fs2
        = load_and_clean_data { fs with xlsxExists := false } fs2)
    ∧ (∀ fs1, load_and_clean_data fs1 fs
        = load_and_clean_data fs1 { fs with xlsxExists := false }) := by
  have hls : ∀ d, loadSource d fs = loadSource d { fs with xlsxExists := false } := by
    intro d
    unfold loadSource
    rw [if_pos hx, hr]
    rfl
  have hps : ∀ d, processSource d fs = processSource d { fs with xlsxExists := false } := by
    intro d
    unfold processSource
    rw [hls d]
  refine ⟨hls dept, ?_, ?_⟩
  · intro fs2
    unfold load_and_clean_data
    rw [hps "CSE"]
  · intro fs1
    unfold load_and_clean_data
    rw [hps "ECE"]

/-- C5: on a CSV decoding error the loader retries exactly once with
latin1: a successful retry yields the batch together with the non-fatal
fallback toast, and its rows still enter the Unified Dataset; a failing
retry, or any non-decoding read failure, yields a non-fatal warning and an
unavailable source. -/
theorem spec_C5 (dept : String) (fs : SourceFS)
    (hx : fs.xlsxExists = false ∨ fs.xlsxRead = none)
    (hcsv : fs.csvExists = true) (hu : fs.csvRead = ReadOutcome.unicodeErr) :
    (∀ d, fs.csvReadLatin1 = some d →
      loadSource dept fs = (some d, [Msg.toastLatin1 dept]))
    ∧ (fs.csvReadLatin1 = none →
      loadSource dept fs = (none, [Msg.warnNoEncoding dept]))
    ∧ (∀ fs' : SourceFS, (fs'.xlsxExists = false ∨ fs'.xlsxRead = none) →
      fs'.csvExists = true → fs'.csvRead = ReadOutcome.err →
      loadSource dept fs' = (none, [Msg.warnCantRead dept]))
    ∧ (∀ d fs2, fs.csvReadLatin1 = some d →
      (processSource "ECE" fs2).1 = none →
      amountCol ∈ (tagBatch "CSE" d).cols →
      ∃ out msgs, load_and_clean_data fs fs2 = Except.ok (out, msgs)
        ∧ Msg.toastLatin1 "CSE" ∈ msgs ∧ out.rows.length = d.rows.length) := by
  have key : ∀ (fsx : SourceFS) dep,
      (fsx.xlsxExists = false ∨ fsx.xlsxRead = none) → fsx.csvExists = true →
      fsx.csvRead = ReadOutcome.unicodeErr →
      ∀ d, fsx.csvReadLatin1 = some d →
      loadSource dep fsx = (some d, [Msg.toastLatin1 dep]) := by
    intro fsx dep hx1 hc1 hu1 d hd1
    obtain ⟨xe, xr, ce, cr, cl⟩ := fsx
    dsimp only at hx1 hc1 hu1 hd1
    subst hc1
    subst hu1
    subst hd1
    rcases hx1 with he | hn
    · subst he
      rfl
    · subst hn
      cases xe <;> rfl
  refine ⟨fun d hd => key fs dept hx hcsv hu d hd, ?_, ?_, ?_⟩
  · intro hnone
    obtain ⟨xe, xr, ce, cr, cl⟩ := fs
    dsimp only at hx hcsv hu hnone
    subst hcsv
    subst hu
    subst hnone
    rcases hx with he | hn
    · subst he
      rfl
    · subst hn
      cases xe <;> rfl
  · intro fs' hx' hc' he'
    obtain ⟨xe, xr, ce, cr, cl⟩ := fs'
    dsimp only at hx' hc' he'
    subst hc'
    subst he'
    rcases hx' with he | hn
    · subst he
      rfl
    · subst hn
      cases xe <;> rfl
  · intro d fs2 hd h2 hmem
    have hp1 : processSource "CSE" fs = (some (tagBatch "CSE" d), [Msg.toastLatin1 "CSE"]) :=
      processSource_some (key fs "CSE" hx hcsv hu d hd)
    rcases hp2 : processSource "ECE" fs2 with ⟨o2, m2⟩
    have ho2 : o2 = none := by
      rw [hp2] at h2
      exact h2
    subst ho2
    rw [load_some hp1 hp2 (by simp)]
    have hred : concatAll ([some (tagBatch "CSE" d), (none : Option DF)].filterMap id)
        = tagBatch "CSE" d := rfl
    rw [hred, normalize_eq_ok _ hmem]
    refine ⟨_, [Msg.toastLatin1 "CSE"] ++ m2, rfl,
      List.mem_append_left _ (List.mem_singleton_self _), ?_⟩
    show (List.map (normRow (tagBatch "CSE" d).cols) (tagBatch "CSE" d).rows).length
      = d.rows.length
    rw [List.length_map]
    exact length_tagBatch "CSE" d

/-- C6: when every source fails to load, the pipeline returns the empty
dataset (fatal only at the pipeline boundary), and the caller's guard halts
presentation before any chart is rendered. -/
theorem spec_C6 (fs1 fs2 : SourceFS)
    (h1 : (loadSource "CSE" fs1).1 = none) (h2 : (loadSource "ECE" fs2).1 = none) :
    (∃ msgs, load_and_clean_data fs1 fs2 = Except.ok (emptyDF, msgs))
    ∧ mainHalts emptyDF = true := by
  constructor
  · rcases hls1 : loadSource "CSE" fs1 with ⟨o1, m1⟩
    rcases hls2 : loadSource "ECE" fs2 with ⟨o2, m2⟩
    have ho1 : o1 = none := by rw [hls1] at h1; exact h1
    have ho2 : o2 = none := by rw [hls2] at h2; exact h2
    subst ho1
    subst ho2
    exact ⟨_, load_both_none (processSource_none hls1) (processSource_none hls2)⟩
  · rfl

/-! ### Department tagging and dataset invariants -/

theorem aliasFn_eq_dept {c : String} (h : aliasFn c = "Department") : c = "Department" := by
  unfold aliasFn at h
  split_ifs at h with h1 h2
  · exact absurd h (by decide)
  · exact absurd h (by decide)
  · exact h

theorem getCell_renameRow_dept (r : Row) :
    getCell (renameRow r) "Department" = getCell r "Department" := by
  induction r with
  | nil => rfl
  | cons p ps ih =>
    show getCell ((aliasFn p.1, p.2) :: renameRow ps) "Department"
      = getCell (p :: ps) "Department"
    by_cases hp : p.1 = "Department"
    · unfold getCell
      have ha : ((aliasFn p.1, p.2).1 == "Department") = true := by
        show (aliasFn p.1 == "Department") = true
        rw [hp]
        decide
      have hb : (p.1 == "Department") = true := beq_iff_eq.mpr hp
      rw [@List.find?_cons_of_pos (String × Value) (fun q => q.1 == "Department") _ _ ha,
        @List.find?_cons_of_pos (String × Value) (fun q => q.1 == "Department") _ _ hb]
    · have h1 : ¬ ((aliasFn p.1, p.2).1 == "Department") = true := fun hb =>
        hp (aliasFn_eq_dept (beq_iff_eq.mp hb))
      have h2 : ¬ (p.1 == "Department") = true := fun hb => hp (beq_iff_eq.mp hb)
      unfold getCell at ih ⊢
      rw [@List.find?_cons_of_neg (String × Value) (fun q => q.1 == "Department") _ _ h1,
        @List.find?_cons_of_neg (String × Value) (fun q => q.1 == "Department") _ _ h2]
      exact ih

theorem dept_tagBatch (dept : String) (b : DF) (r : Row)
    (hr : r ∈ (tagBatch dept b).rows) :
    getCell r "Department" = Value.str dept := by
  have hr' : r ∈ List.map renameRow (List.map
      (fun r0 => setCell r0 "Department" (Value.str dept)) b.rows) := hr
  obtain ⟨q, hq, hqr⟩ := List.mem_map.mp hr'
  obtain ⟨q0, hq0, hq0q⟩ := List.mem_map.mp hq
  rw [← hqr, getCell_renameRow_dept, ← hq0q, getCell_setCell_self]

theorem load_ok_shape {fs1 fs2 : SourceFS} {o1 o2 : Option DF} {m1 m2 : List Msg} {X : DF}
    {d : DF} {msgs : List Msg}
    (h1 : processSource "CSE" fs1 = (o1, m1))
    (h2 : processSource "ECE" fs2 = (o2, m2))
    (hne : ¬ [o1, o2].filterMap id = [])
    (hX : concatAll ([o1, o2].filterMap id) = X)
    (h : load_and_clean_data fs1 fs2 = Except.ok (d, msgs)) :
    amountCol ∈ X.cols ∧ d = ⟨X.cols, X.rows.map (normRow X.cols)⟩ := by
  rw [load_some h1 h2 hne, hX] at h
  by_cases hmem : amountCol ∈ X.cols
  · rw [normalize_eq_ok _ hmem] at h
    exact ⟨hmem, (congrArg Prod.fst (Except.ok.inj h)).symm⟩
  · rw [normalize_err _ hmem] at h
    exact Except.noConfusion (show Except.error () = Except.ok (d, msgs) from h)

theorem normRow_row_props {cols : List String} {r0 : Row} {dept : String}
    (hdep : getCell r0 "Department" = Value.str dept) :
    getCell (normRow cols r0) "Department" = Value.str dept
    ∧ getCell (normRow cols r0) "Department" ≠ Value.null
    ∧ ("Co-investigator" ∈ cols → getCell (normRow cols r0) "Co-investigator" ≠ Value.null)
    ∧ ("Domain" ∈ cols → getCell (normRow cols r0) "Domain" ≠ Value.null)
    ∧ ("Faculty Name" ∈ cols → getCell (normRow cols r0) "Faculty Name" ≠ Value.null) := by
  have hdep' : getCell (normRow cols r0) "Department" = Value.str dept := by
    rw [getCell_normRow_other cols r0 "Department" (by decide) (by decide) (by decide)
      (by decide) (by decide)]
    exact hdep
  refine ⟨hdep', ?_, ?_, ?_, ?_⟩
  · rw [hdep']
    exact fun hh => Value.noConfusion hh
  · intro hc
    rw [getCell_normRow_coinv cols r0 hc]
    exact fillVal_ne_null _ _
  · intro hc
    rw [getCell_normRow_domain cols r0 hc]
    exact fillVal_ne_null _ _
  · intro hc
    rw [getCell_normRow_faculty cols r0 hc]
    exact fillVal_ne_null _ _

/-- C2: after normalization every `Amount(in lakhs)` cell is a number
(never null, and never the NaN that `to_numeric` produces, since it is
filled with 0), and any cell whose numeric parse fails — including a
missing cell — is coerced to 0 rather than raising. -/
theorem spec_C2 (df d : DF) (h : normalize df = Except.ok d) :
    (∀ r ∈ d.rows, ∃ x : Rat, getCell r amountCol = Value.num x)
    ∧ (∀ v : Value, toNumeric v = none → coerceAmount v = Value.num 0) := by
  have hmem : amountCol ∈ df.cols := by
    by_contra hn
    rw [normalize_err _ hn] at h
    exact Except.noConfusion h
  have hd : d = ⟨df.cols, df.rows.map (normRow df.cols)⟩ :=
    Except.ok.inj (h.symm.trans (normalize_eq_ok df hmem))
  subst hd
  constructor
  · intro r hr
    have hr' : r ∈ List.map (normRow df.cols) df.rows := hr
    obtain ⟨r0, hr0, hrr⟩ := List.mem_map.mp hr'
    exact ⟨(toNumeric (getCell r0 amountCol)).getD 0, by
      rw [← hrr, getCell_normRow_amount]
      rfl⟩
  · intro v hv
    unfold coerceAmount
    rw [hv]
    rfl

/-- C9: every row of the constructed Unified Dataset carries its source tag
in `Department` (never null), and, for each of `Co-investigator`, `Domain`
and `Faculty Name` that is present, no cell is null — the fill transform
maps a null to the sentinels "None", "Unspecified" and "Unknown"
respectively. -/
theorem spec_C9 (fs1 fs2 : SourceFS) (d : DF) (msgs : List Msg)
    (h : load_and_clean_data fs1 fs2 = Except.ok (d, msgs)) :
    (∀ r ∈ d.rows,
      (getCell r "Department" = Value.str "CSE" ∨ getCell r "Department" = Value.str "ECE")
      ∧ getCell r "Department" ≠ Value.null
      ∧ ("Co-investigator" ∈ d.cols → getCell r "Co-investigator" ≠ Value.null)
      ∧ ("Domain" ∈ d.cols → getCell r "Domain" ≠ Value.null)
      ∧ ("Faculty Name" ∈ d.cols → getCell r "Faculty Name" ≠ Value.null))
    ∧ fillVal "None" Value.null = Value.str "None"
    ∧ fillVal "Unspecified" Value.null = Value.str "Unspecified"
    ∧ fillVal "Unknown" Value.null = Value.str "Unknown" := by
  refine ⟨?_, by decide, by decide, by decide⟩
  rcases hls1 : loadSource "CSE" fs1 with ⟨_ | d1, m1⟩ <;>
    rcases hls2 : loadSource "ECE" fs2 with ⟨_ | d2, m2⟩
  · have hd : emptyDF = d := congrArg Prod.fst (Except.ok.inj
      ((load_both_none (processSource_none hls1) (processSource_none hls2)).symm.trans h))
    intro r hr
    rw [← hd] at hr
    exact absurd hr (by simp [emptyDF])
  · obtain ⟨hmem, hd⟩ := load_ok_shape (processSource_none hls1)
      (processSource_some hls2) (by simp) rfl h
    subst hd
    intro r hr
    have hr' : r ∈ List.map (normRow (tagBatch "ECE" d2).cols) (tagBatch "ECE" d2).rows := hr
    obtain ⟨r0, hr0, hrr⟩ := List.mem_map.mp hr'
    rw [← hrr]
    obtain ⟨p1, p2, p3, p4, p5⟩ := normRow_row_props (dept_tagBatch "ECE" d2 r0 hr0)
    exact ⟨Or.inr p1, p2, p3, p4, p5⟩
  · obtain ⟨hmem, hd⟩ := load_ok_shape (processSource_some hls1)
      (processSource_none hls2) (by simp) rfl h
    subst hd
    intro r hr
    have hr' : r ∈ List.map (normRow (tagBatch "CSE" d1).cols) (tagBatch "CSE" d1).rows := hr
    obtain ⟨r0, hr0, hrr⟩ := List.mem_map.mp hr'
    rw [← hrr]
    obtain ⟨p1, p2, p3, p4, p5⟩ := normRow_row_props (dept_tagBatch "CSE" d1 r0 hr0)
    exact ⟨Or.inl p1, p2, p3, p4, p5⟩
  · obtain ⟨hmem, hd⟩ := load_ok_shape (processSource_some hls1)
      (processSource_some hls2) (by simp) rfl h
    subst hd
    intro r hr
    have hr' : r ∈ List.map
        (normRow (concatDF (tagBatch "CSE" d1) (tagBatch "ECE" d2)).cols)
        ((tagBatch "CSE" d1).rows ++ (tagBatch "ECE" d2).rows) := hr
    obtain ⟨r0, hr0, hrr⟩ := List.mem_map.mp hr'
    rw [← hrr]
    rcases List.mem_append.mp hr0 with hl | hrt
    · obtain ⟨p1, p2, p3, p4, p5⟩ := normRow_row_props (dept_tagBatch "CSE" d1 r0 hl)
      exact ⟨Or.inl p1, p2, p3, p4, p5⟩
    · obtain ⟨p1, p2, p3, p4, p5⟩ := normRow_row_props (dept_tagBatch "ECE" d2 r0 hrt)
      exact ⟨Or.inr p1, p2, p3, p4, p5⟩

/-- C10: when a `Status` column is present, normalization string-coerces a
null status to "nan" before trimming and capitalization, so a null input
becomes the literal string "Nan" and after normalization no status cell is
null. -/
theorem spec_C10 (df d : DF) (h : normalize df = Except.ok d) (hS : "Status" ∈ df.cols) :
    (∀ r ∈ df.rows, getCell r "Status" = Value.null →
      getCell (normRow df.cols r) "Status" = Value.str "Nan"
      ∧ normRow df.cols r ∈ d.rows)
    ∧ (∀ r ∈ d.rows, getCell r "Status" ≠ Value.null)
    ∧ statusTransform Value.null = Value.str "Nan" := by
  have hmem : amountCol ∈ df.cols := by
    by_contra hn
    rw [normalize_err _ hn] at h
    exact Except.noConfusion h
  have hd : d = ⟨df.cols, df.rows.map (normRow df.cols)⟩ :=
    Except.ok.inj (h.symm.trans (normalize_eq_ok df hmem))
  subst hd
  refine ⟨?_, ?_, by decide⟩
  · intro r hr hnull
    constructor
    · rw [getCell_normRow_status df.cols r hS, hnull]
      decide
    · exact List.mem_map.mpr ⟨r, hr, rfl⟩
  · intro r hr
    have hr' : r ∈ List.map (normRow df.cols) df.rows := hr
    obtain ⟨r0, hr0, hrr⟩ := List.mem_map.mp hr'
    rw [← hrr, getCell_normRow_status df.cols r0 hS]
    exact fun hh => Value.noConfusion hh

/-! ### Filtering and summary metrics -/

theorem filterDF_cols (df : DF) (dept status : String) :
    (filterDF df dept status).cols = df.cols := by
  unfold filterDF
  dsimp only
  split_ifs <;> rfl

/-- The spec's description of which rows the Aggregator/Filter keeps: a
wildcard selection keeps everything, otherwise `Department` must equal the
selection, and the `Status` test applies only when a `Status` column
exists. -/
def specKeepRow (cols : List String) (dept status : String) (r : Row) : Bool :=
  (decide (dept = "All") || valEqStr (getCell r "Department") dept)
  && (decide (status = "All") || !(decide ("Status" ∈ cols))
      || valEqStr (getCell r "Status") status)

/-- C7: the two equality filters keep exactly the rows the spec describes:
wildcards keep all rows, a department selection keeps the rows whose
`Department` equals it, a status selection keeps the rows whose `Status`
equals it, and the status filter applies only when a `Status` column
exists. Columns are untouched. -/
theorem spec_C7 (df : DF) (dept status : String) :
    (filterDF df dept status).cols = df.cols
    ∧ (filterDF df dept status).rows = df.rows.filter (specKeepRow df.cols dept status) := by
  refine ⟨filterDF_cols df dept status, ?_⟩
  unfold filterDF
  by_cases hd : dept = "All" <;> by_cases hs : status = "All"
  · rw [if_neg (not_not_intro hd), if_neg (fun hc => hc.1 hs)]
    symm
    refine List.filter_eq_self.mpr ?_
    intro r _
    simp [specKeepRow, hd, hs]
  · rw [if_neg (not_not_intro hd)]
    by_cases hst : "Status" ∈ df.cols
    · rw [if_pos ⟨hs, hst⟩]
      show df.rows.filter (fun r => valEqStr (getCell r "Status") status)
        = df.rows.filter (specKeepRow df.cols dept status)
      refine List.filter_congr ?_
      intro r _
      simp [specKeepRow, hd, hs, hst]
    · rw [if_neg (fun hc => hst hc.2)]
      symm
      refine List.filter_eq_self.mpr ?_
      intro r _
      simp [specKeepRow, hd, hs, hst]
  · rw [if_pos hd, if_neg (fun hc => hc.1 hs)]
    show df.rows.filter (fun r => valEqStr (getCell r "Department") dept)
      = df.rows.filter (specKeepRow df.cols dept status)
    refine List.filter_congr ?_
    intro r _
    simp [specKeepRow, hd, hs]
  · rw [if_pos hd]
    by_cases hst : "Status" ∈ df.cols
    · rw [if_pos ⟨hs, hst⟩]
      show (df.rows.filter (fun r => valEqStr (getCell r "Department") dept)).filter
          (fun r => valEqStr (getCell r "Status") status)
        = df.rows.filter (specKeepRow df.cols dept status)
      rw [List.filter_filter]
      refine List.filter_congr ?_
      intro r _
      simp [specKeepRow, hd, hs, hst, Bool.and_comm]
    · rw [if_neg (fun hc => hst hc.2)]
      show df.rows.filter (fun r => valEqStr (getCell r "Department") dept)
        = df.rows.filter (specKeepRow df.cols dept status)
      refine List.filter_congr ?_
      intro r _
      simp [specKeepRow, hd, hs, hst]

/-- C8: over the filtered subset, average funding equals total funding
divided by project count when the count is positive and 0 when the count is
0 (no division error), and the distinct active-researcher count is 0 when
the `Faculty Name` column is absent. -/
theorem spec_C8 (df : DF) (dept status : String) :
    (0 < total_projects (filterDF df dept status) →
      avg_funding (filterDF df dept status)
        = total_funding (filterDF df dept status)
          / (total_projects (filterDF df dept status) : Rat))
    ∧ (total_projects (filterDF df dept status) = 0 →
      avg_funding (filterDF df dept status) = 0)
    ∧ ("Faculty Name" ∉ df.cols → unique_faculty (filterDF df dept status) = 0) := by
  refine ⟨?_, ?_, ?_⟩
  · intro hpos
    unfold avg_funding
    rw [if_pos hpos]
  · intro hzero
    unfold avg_funding
    rw [if_neg (by omega)]
  · intro habs
    unfold unique_faculty
    have hnc : ¬ "Faculty Name" ∈ (filterDF df dept status).cols := by
      rw [filterDF_cols]
      exact habs
    rw [if_neg hnc]

/-! ### Concrete fixtures -/

/-- A readable batch that lacks the `Amount(in lakhs)` column. -/
def dfNoAmount : DF := ⟨["X"], [[("X", Value.str "hi")]]⟩

/-- A well-formed CSE batch. -/
def dfCSE : DF :=
  ⟨["Faculty Name", "Amount(in lakhs)", "Status"],
   [[("Faculty Name", Value.str "A"), ("Amount(in lakhs)", Value.str "10"),
     ("Status", Value.str " ongoing ")]]⟩

/-- An ECE batch with an unparsable amount and a null status. -/
def dfECE : DF :=
  ⟨["Faculty Name", "Amount(in lakhs)", "Status"],
   [[("Faculty Name", Value.null), ("Amount(in lakhs)", Value.str "abc"),
     ("Status", Value.null)]]⟩

/-- Filesystem state for one source: the spreadsheet exists and reads to
`b`. -/
def fsXlsx (b : DF) : SourceFS := ⟨true, some b, false, ReadOutcome.err, none⟩

/-- Filesystem state for one source: no file exists. -/
def fsMissing : SourceFS := ⟨false, none, false, ReadOutcome.err, none⟩

/-- Filesystem state for one source: only the CSV exists, the default
encoding raises a UnicodeDecodeError, and the latin1 retry reads to `b`. -/
def fsLatinCsv (b : DF) : SourceFS := ⟨false, none, true, ReadOutcome.unicodeErr, some b⟩

/-- The Normalizer's output on the renamed CSE batch. -/
def dfCSEn : DF :=
  ⟨(renameDF dfCSE).cols, (renameDF dfCSE).rows.map (normRow (renameDF dfCSE).cols)⟩

/-- C1 counterexample: the CSE spreadsheet is readable but lacks the
`Amount(in lakhs)` column and the ECE files are absent; line 57's column
access then raises an uncaught KeyError (the model's `.error ()`), so an
exception does escape `load_and_clean_data` for this filesystem state. -/
theorem spec_C1_counterexample :
    load_and_clean_data (fsXlsx dfNoAmount) fsMissing = Except.error () := rfl

theorem spec_C1_witness :
    load_and_clean_data (fsXlsx dfCSE) fsMissing ≠ Except.error () := by
  obtain ⟨d, msgs, h1, _, _⟩ := spec_C1 (fsXlsx dfCSE) fsMissing (Or.inr (by decide))
  rw [h1]
  exact fun hh => Except.noConfusion hh

theorem spec_C2_witness :
    coerceAmount (Value.str "abc") = Value.num 0 := by
  have h := spec_C2 dfECE ⟨dfECE.cols, dfECE.rows.map (normRow dfECE.cols)⟩
    (normalize_eq_ok dfECE (by decide))
  exact h.2 (Value.str "abc") (by decide)

theorem spec_C3_witness :
    normalizer dfCSEn = Except.ok dfCSEn :=
  (spec_C3 dfCSE dfCSEn (normalize_eq_ok (renameDF dfCSE) (by decide))).1

theorem spec_C4_witness :
    loadSource "CSE" (⟨true, none, true, ReadOutcome.ok dfCSE, none⟩ : SourceFS)
      = loadSource "CSE"
        { (⟨true, none, true, ReadOutcome.ok dfCSE, none⟩ : SourceFS) with xlsxExists := false } :=
  (spec_C4 "CSE" ⟨true, none, true, ReadOutcome.ok dfCSE, none⟩ rfl rfl).1

theorem spec_C5_witness :
    loadSource "CSE" (fsLatinCsv dfCSE) = (some dfCSE, [Msg.toastLatin1 "CSE"]) :=
  ((spec_C5 "CSE" (fsLatinCsv dfCSE) (Or.inl rfl) rfl rfl).1) dfCSE rfl

theorem spec_C6_witness :
    load_and_clean_data fsMissing fsMissing
      = Except.ok (emptyDF, [Msg.errNoData "CSE", Msg.errNoData "ECE"])
    ∧ mainHalts emptyDF = true :=
  ⟨rfl, (spec_C6 fsMissing fsMissing rfl rfl).2⟩

theorem spec_C8_witness :
    avg_funding (filterDF dfCSEn "All" "All")
      = total_funding (filterDF dfCSEn "All" "All")
        / (total_projects (filterDF dfCSEn "All" "All") : Rat)
    ∧ avg_funding (filterDF dfCSEn "CSE" "All") = 0
    ∧ unique_faculty (filterDF dfNoAmount "All" "All") = 0 :=
  ⟨(spec_C8 dfCSEn "All" "All").1 (by decide),
   (spec_C8 dfCSEn "CSE" "All").2.1 (by decide),
   (spec_C8 dfNoAmount "All" "All").2.2 (by decide)⟩

theorem spec_C9_witness :
    fillVal "None" Value.null = Value.str "None"
    ∧ fillVal "Unspecified" Value.null = Value.str "Unspecified"
    ∧ fillVal "Unknown" Value.null = Value.str "Unknown" := by
  obtain ⟨_, h2, h3, h4⟩ := spec_C9 (fsXlsx dfCSE) fsMissing
    ⟨(tagBatch "CSE" dfCSE).cols,
     (tagBatch "CSE" dfCSE).rows.map (normRow (tagBatch "CSE" dfCSE).cols)⟩
    ([] ++ [Msg.errNoData "ECE"]) rfl
  exact ⟨h2, h3, h4⟩

theorem spec_C10_witness :
    statusTransform Value.null = Value.str "Nan" := by
  obtain ⟨_, _, h3⟩ := spec_C10 dfECE ⟨dfECE.cols, dfECE.rows.map (normRow dfECE.cols)⟩
    (normalize_eq_ok dfECE (by decide)) (by decide)
  exact h3

end FacultyDashboard
